import Mathlib

/-!
Verification of the revision controller
(`vendor/github.com/openshift/library-go/pkg/operator/staticpod/controller/revision/deployment_controller.go`).

The Go controller is embedded shallowly:

* pure data (configmaps, secrets, operator status, conditions) become Lean
  structures;
* the Kubernetes client and the status client are modelled as oracles packed
  in a `KubeWorld` structure: every call the controller makes
  (`Get`, `ApplyConfigMap`, `SyncConfigMap`, `SyncSecret`, `UpdateStatus`)
  receives its outcome from the world / from a fault schedule;
* each controller function is translated into a pure Lean function that
  returns its Go results together with the persisted-status state and a trace
  of the store operations it performed;
* `int32` revision arithmetic is modelled on `Int` with explicit twos
  complement wrap-around (`wrap32`).
-/

namespace RevisionCtl

/-- A Kubernetes object as far as the controller observes it: the metadata
fields it copies into owner references plus the `Data` payload.  `Data` of
both configmaps and secrets is modelled as an association list of strings;
equality of the lists stands for `equality.Semantic.DeepEqual` on the maps. -/
structure KObj where
  apiVersion : String
  kind : String
  name : String
  uid : String
  data : List (String × String)
deriving DecidableEq

/-- The zero value of a Kubernetes object (what a typed client returns
alongside a non-nil error). -/
def KObj.zero : KObj := ⟨"", "", "", "", []⟩

/-- The Go `metav1.OwnerReference` restricted to the fields the controller fills. -/
structure OwnerRef where
  apiVersion : String
  kind : String
  name : String
  uid : String
deriving DecidableEq

/-- Owner reference built from an object, as in `createNewRevision`. -/
def ownerRefOf (o : KObj) : OwnerRef := ⟨o.apiVersion, o.kind, o.name, o.uid⟩

/-- Outcome of a `Get` call: success, a NotFound error with its message, or
any other error together with the (possibly zero-valued) object the client
returned alongside it. -/
inductive FetchResult where
  | ok (obj : KObj)
  | notFound (msg : String)
  | otherErr (obj : KObj) (msg : String)
deriving DecidableEq

/-- The object a `Get` call handed back (the zero object on NotFound). -/
def FetchResult.objOf : FetchResult → KObj
  | .ok o => o
  | .notFound _ => KObj.zero
  | .otherErr o _ => o

/-- Result of `apierrors.IsNotFound(err)` together with `err.Error()`. -/
def FetchResult.notFoundMsg : FetchResult → Option String
  | .notFound m => some m
  | _ => none

/-- Go error values the controller constructs or receives:
`apierrors.NewNotFound(resource, name)` keeps exactly the resource kind and
the object name; every other error is kept as its message. -/
inductive KError where
  | notFound (resource : String) (name : String)
  | other (msg : String)
deriving DecidableEq

/-- Rendering of `err.Error()`.  `NewNotFound` renders `<resource> "<name>" not found`. -/
def KError.message : KError → String
  | .notFound resource name => resource ++ " \"" ++ name ++ "\" not found"
  | .other msg => msg

/-- The Go `operatorv1.ManagementState` enum. -/
inductive ManagementState where
  | Managed
  | Unmanaged
  | Force
  | Removed
deriving DecidableEq

/-- The part of `operatorv1.OperatorSpec` the controller reads. -/
structure OperatorSpec where
  managementState : ManagementState
deriving DecidableEq

/-- The Go `operatorv1.ConditionStatus` enum. -/
inductive ConditionStatus where
  | condTrue
  | condFalse
  | condUnknown
deriving DecidableEq

/-- The Go `operatorv1.OperatorCondition` restricted to the fields the controller
writes. -/
structure OperatorCondition where
  type : String
  status : ConditionStatus
  reason : String
  message : String
deriving DecidableEq

/-- The part of `operatorv1.StaticPodOperatorStatus` the controller uses. -/
structure OperatorStatus where
  latestAvailableRevision : Int
  conditions : List OperatorCondition
deriving DecidableEq

/-- Configuration of the controller (`RevisionController` struct fields that
drive the algorithm). -/
structure RevisionController where
  targetNamespace : String
  configMaps : List String
  secrets : List String

/-- Outcome of `resourceapply.ApplyConfigMap`: the applied object or an
error. -/
inductive ApplyOutcome where
  | applied (obj : KObj)
  | failed (e : KError)
deriving DecidableEq

/-- Outcome of `resourceapply.SyncConfigMap` / `SyncSecret`: the copied
object, a nil object with nil error (source absent), or an error. -/
inductive SyncOutcome where
  | synced (obj : KObj)
  | absent
  | failed (e : KError)
deriving DecidableEq

/-- The external collaborators of one reconciliation pass.  Each field gives
the outcome of the corresponding store call; the controller itself is
deterministic given a world. -/
structure KubeWorld where
  getConfigMap : String → String → FetchResult
  getSecret : String → String → FetchResult
  applyConfigMap : KObj → ApplyOutcome
  syncConfigMap : String → String → String → String → List OwnerRef → SyncOutcome
  syncSecret : String → String → String → String → List OwnerRef → SyncOutcome
  operatorSpec : OperatorSpec
  getError : Option KError

/-- The Go `fmt.Sprintf("%s-%d", name, revision)` naming helper. -/
def nameFor (name : String) (revision : Int) : String :=
  name ++ "-" ++ toString revision

/-- Twos-complement wrap-around of Go `int32` arithmetic. -/
def wrap32 (n : Int) : Int := (n + 2147483648) % 4294967296 - 2147483648

/-- Successor of `revision` on Go `int32`. -/
def int32succ (n : Int) : Int := wrap32 (n + 1)

/-- The body of one iteration of the loops in `isLatestRevisionCurrent`:
fetch the live resource, fail on NotFound with the error text; fetch the
`<name>-<revision>` snapshot, fail on NotFound with the error text; compare
the `Data` fields, fail with `<kind>/<name> has changed`; otherwise pass
(`none`). -/
def checkResource (kind : String) (get : String → FetchResult) (revision : Int)
    (name : String) : Option String :=
  match (get name).notFoundMsg with
  | some msg => some msg
  | none =>
    let required := (get name).objOf
    match (get (nameFor name revision)).notFoundMsg with
    | some msg => some msg
    | none =>
      let existing := (get (nameFor name revision)).objOf
      if existing.data = required.data then none
      else some (kind ++ "/" ++ required.name ++ " has changed")

/-- The configmap loop body of `isLatestRevisionCurrent` for controller `c`
against world `w`. -/
def configMapCheck (c : RevisionController) (w : KubeWorld) (revision : Int)
    (name : String) : Option String :=
  checkResource "configmap" (w.getConfigMap c.targetNamespace) revision name

/-- The secret loop body of `isLatestRevisionCurrent` for controller `c`
against world `w`. -/
def secretCheck (c : RevisionController) (w : KubeWorld) (revision : Int)
    (name : String) : Option String :=
  checkResource "secret" (w.getSecret c.targetNamespace) revision name

/-- The Go `RevisionController.isLatestRevisionCurrent`: walk the configured
configmaps in order, then the configured secrets in order, returning the
first failure, else `(true, "")`. -/
def isLatestRevisionCurrent (c : RevisionController) (w : KubeWorld)
    (revision : Int) : Bool × String :=
  match c.configMaps.findSome? (configMapCheck c w revision) with
  | some reason => (false, reason)
  | none =>
    match c.secrets.findSome? (secretCheck c w revision) with
    | some reason => (false, reason)
    | none => (true, "")

/-- One store operation performed by the controller, as recorded in a trace.
`updateStatus` records the status the mutators attempted to write together
with the outcome of the call; the recorder events are the `Eventf`/`Warningf`
audit-trail calls (not store writes). -/
inductive Event where
  | applyConfigMap (obj : KObj) (outcome : ApplyOutcome)
  | syncConfigMap (srcNamespace srcName dstNamespace dstName : String)
      (owners : List OwnerRef) (outcome : SyncOutcome)
  | syncSecret (srcNamespace srcName dstNamespace dstName : String)
      (owners : List OwnerRef) (outcome : SyncOutcome)
  | updateStatus (attempted : OperatorStatus) (outcome : Option KError)
  | recordEvent (reason msg : String)
  | recordWarning (reason msg : String)
deriving DecidableEq

/-- The Status Store: the persisted operator status plus a schedule of
outcomes for the coming `UpdateStatus` calls (`none` = the compare-and-swap
write succeeds, `some e` = it fails with `e`; an exhausted schedule means
success). -/
structure StatusState where
  status : OperatorStatus
  faults : List (Option KError)
deriving DecidableEq

/-- The fault the next `UpdateStatus` call will hit. -/
def headFault : List (Option KError) → Option KError
  | [] => none
  | f :: _ => f

/-- Modelled from the spec: the Condition data model of §3 — conditions are
keyed by `type`, at most one live condition per type — so setting a
condition replaces the one of the same type or appends.  (The helper
`v1helpers`-style condition setter used via `common.UpdateConditionFn` is
not part of the sources.) -/
def setCondition (cond : OperatorCondition) (conds : List OperatorCondition) :
    List OperatorCondition :=
  if conds.any (fun c => c.type = cond.type) then
    conds.map (fun c => if c.type = cond.type then cond else c)
  else conds ++ [cond]

/-- The Go `common.UpdateConditionFn cond` as a status mutator. -/
def updateConditionFn (cond : OperatorCondition) (st : OperatorStatus) :
    OperatorStatus :=
  { st with conditions := setCondition cond st.conditions }

/-- Apply a list of status mutators in order, as `UpdateStatus` does. -/
def applyMutators (mutators : List (OperatorStatus → OperatorStatus))
    (st : OperatorStatus) : OperatorStatus :=
  mutators.foldl (fun s f => f s) st

/-- Result of an `UpdateStatus` call: the status it returned, the `changed`
flag, the error, the store state afterwards and the trace event. -/
structure UpdateResult where
  status : OperatorStatus
  changed : Bool
  err : Option KError
  state : StatusState
  event : Event
deriving DecidableEq

/-- Modelled from the spec: the §6 Status Store contract
`UpdateStatus(mutator functions) -> (status, changed bool, error)` with
compare-and-swap semantics (`common.UpdateStatus` is not part of the
sources).  In this single-worker model a call either fails — per the fault
schedule — leaving the persisted status untouched, or applies the mutators
to the current persisted status and reports whether anything changed. -/
def runUpdateStatus (ss : StatusState)
    (mutators : List (OperatorStatus → OperatorStatus)) : UpdateResult :=
  let attempted := applyMutators mutators ss.status
  match ss.faults with
  | some e :: rest =>
    ⟨ss.status, false, some e, ⟨ss.status, rest⟩, .updateStatus attempted (some e)⟩
  | none :: rest =>
    ⟨attempted, if attempted = ss.status then false else true, none,
      ⟨attempted, rest⟩, .updateStatus attempted none⟩
  | [] =>
    ⟨attempted, if attempted = ss.status then false else true, none,
      ⟨attempted, []⟩, .updateStatus attempted none⟩

/-- The `revision-status-<r>` configmap literal built at the top of
`createNewRevision`. -/
def revisionMarker (revision : Int) : KObj :=
  { apiVersion := "", kind := "", uid := "",
    name := nameFor "revision-status" revision,
    data := [("status", "InProgress"), ("revision", toString revision)] }

/-- Result of `createNewRevision`: the Go error and the trace of store
operations. -/
structure CRNResult where
  err : Option KError
  trace : List Event
deriving DecidableEq

/-- The configmap copy loop of `createNewRevision`: for each name, copy it
to `<name>-<revision>` with the given owner references; stop at the first
error, turning a nil-object result into
`apierrors.NewNotFound(corev1.Resource("configmaps"), name)`. -/
def configMapSyncLoop (c : RevisionController) (w : KubeWorld) (revision : Int)
    (owners : List OwnerRef) : List String → CRNResult
  | [] => ⟨none, []⟩
  | name :: rest =>
    match w.syncConfigMap c.targetNamespace name c.targetNamespace
        (nameFor name revision) owners with
    | .failed e =>
      ⟨some e, [.syncConfigMap c.targetNamespace name c.targetNamespace
        (nameFor name revision) owners (.failed e)]⟩
    | .absent =>
      ⟨some (.notFound "configmaps" name),
        [.syncConfigMap c.targetNamespace name c.targetNamespace
          (nameFor name revision) owners .absent]⟩
    | .synced o =>
      let r := configMapSyncLoop c w revision owners rest
      ⟨r.err, .syncConfigMap c.targetNamespace name c.targetNamespace
        (nameFor name revision) owners (.synced o) :: r.trace⟩

/-- The secret copy loop of `createNewRevision`, identical in shape with
`SyncSecret` and resource `secrets`. -/
def secretSyncLoop (c : RevisionController) (w : KubeWorld) (revision : Int)
    (owners : List OwnerRef) : List String → CRNResult
  | [] => ⟨none, []⟩
  | name :: rest =>
    match w.syncSecret c.targetNamespace name c.targetNamespace
        (nameFor name revision) owners with
    | .failed e =>
      ⟨some e, [.syncSecret c.targetNamespace name c.targetNamespace
        (nameFor name revision) owners (.failed e)]⟩
    | .absent =>
      ⟨some (.notFound "secrets" name),
        [.syncSecret c.targetNamespace name c.targetNamespace
          (nameFor name revision) owners .absent]⟩
    | .synced o =>
      let r := secretSyncLoop c w revision owners rest
      ⟨r.err, .syncSecret c.targetNamespace name c.targetNamespace
        (nameFor name revision) owners (.synced o) :: r.trace⟩

/-- The Go `RevisionController.createNewRevision`: apply the `revision-status-<r>`
marker configmap first; on success, copy every configured configmap and then
every configured secret under its revision-suffixed name, attaching an owner
reference to the applied marker. -/
def createNewRevision (c : RevisionController) (w : KubeWorld)
    (revision : Int) : CRNResult :=
  match w.applyConfigMap (revisionMarker revision) with
  | .failed e => ⟨some e, [.applyConfigMap (revisionMarker revision) (.failed e)]⟩
  | .applied applied =>
    let owners := [ownerRefOf applied]
    let applyEv := Event.applyConfigMap (revisionMarker revision) (.applied applied)
    match configMapSyncLoop c w revision owners c.configMaps with
    | ⟨some e, tr⟩ => ⟨some e, applyEv :: tr⟩
    | ⟨none, tr⟩ =>
      match secretSyncLoop c w revision owners c.secrets with
      | ⟨some e, tr2⟩ => ⟨some e, applyEv :: (tr ++ tr2)⟩
      | ⟨none, tr2⟩ => ⟨none, applyEv :: (tr ++ tr2)⟩

/-- The `RevisionControllerFailing` condition set to True with a reason and
message. -/
def failingTrue (reason msg : String) : OperatorCondition :=
  { type := "RevisionControllerFailing", status := .condTrue,
    reason := reason, message := msg }

/-- The `RevisionControllerFailing` condition cleared to False. -/
def failingFalse : OperatorCondition :=
  { type := "RevisionControllerFailing", status := .condFalse,
    reason := "", message := "" }

/-- Result of `createRevisionIfNeeded`: the `(requeue, error)` pair, the
status store afterwards and the trace. -/
structure CRIResult where
  requeue : Bool
  err : Option KError
  state : StatusState
  trace : List Event
deriving DecidableEq

/-- The Go `RevisionController.createRevisionIfNeeded`.  The status the function
received is a deep copy, so `operatorStatusOriginal` is passed by value;
`ss` is the Status Store the `UpdateStatus` calls act on. -/
def createRevisionIfNeeded (c : RevisionController) (w : KubeWorld)
    (ss : StatusState) (operatorStatusOriginal : OperatorStatus) : CRIResult :=
  let operatorStatus := operatorStatusOriginal
  let latestRevision := operatorStatus.latestAvailableRevision
  match isLatestRevisionCurrent c w latestRevision with
  | (true, _) => ⟨false, none, ss, []⟩
  | (false, reason) =>
    let nextRevision := int32succ latestRevision
    match createNewRevision c w nextRevision with
    | ⟨some e, tr⟩ =>
      let cond := failingTrue "ContentCreationError" e.message
      let u := runUpdateStatus ss [updateConditionFn cond]
      match u.err with
      | some updateError =>
        ⟨true, some updateError, u.state,
          tr ++ [u.event, .recordWarning "RevisionCreateFailed"
            ("Failed to create revision " ++ toString nextRevision ++ ": "
              ++ e.message)]⟩
      | none => ⟨true, none, u.state, tr ++ [u.event]⟩
    | ⟨none, tr⟩ =>
      let u := runUpdateStatus ss
        [updateConditionFn failingFalse,
         fun st => { st with latestAvailableRevision := nextRevision }]
      match u.err with
      | some updateError => ⟨true, some updateError, u.state, tr ++ [u.event]⟩
      | none =>
        if u.changed then
          ⟨false, none, u.state,
            tr ++ [u.event, .recordEvent "RevisionCreate"
              ("Revision " ++ toString operatorStatus.latestAvailableRevision
                ++ " created because " ++ reason)]⟩
        else ⟨false, none, u.state, tr ++ [u.event]⟩

/-- Result of `sync`: the returned error, the status store afterwards and
the trace. -/
structure SyncResult where
  err : Option KError
  state : StatusState
  trace : List Event
deriving DecidableEq

/-- Whether the management-state switch in `sync` falls through to the
reconciliation work (everything but `Unmanaged` and `Removed`). -/
def fallsThrough : ManagementState → Bool
  | .Unmanaged => false
  | .Removed => false
  | _ => true

/-- The Go `RevisionController.sync`: read the operator config, no-op on
`Unmanaged`/`Removed`, run `createRevisionIfNeeded`, turn a requeue without
error into the synthetic requeue error, then write the
`RevisionControllerFailing` condition for this pass and return. -/
def sync (c : RevisionController) (w : KubeWorld) (ss : StatusState) :
    SyncResult :=
  match w.getError with
  | some e => ⟨some e, ss, []⟩
  | none =>
    match w.operatorSpec.managementState with
    | .Unmanaged => ⟨none, ss, []⟩
    | .Removed => ⟨none, ss, []⟩
    | _ =>
      let cri := createRevisionIfNeeded c w ss ss.status
      if cri.requeue = true ∧ cri.err = none then
        ⟨some (.other "synthetic requeue request (err: <nil>)"), cri.state,
          cri.trace⟩
      else
        let cond := match cri.err with
          | some e => failingTrue "Error" e.message
          | none => failingFalse
        let u := runUpdateStatus cri.state [updateConditionFn cond]
        match u.err with
        | some updateError =>
          if cri.err = none then ⟨some updateError, u.state, cri.trace ++ [u.event]⟩
          else ⟨cri.err, u.state, cri.trace ++ [u.event]⟩
        | none => ⟨cri.err, u.state, cri.trace ++ [u.event]⟩

/-- A configmap-like object with empty metadata except its name. -/
def cmObj (n : String) (d : List (String × String)) : KObj :=
  { apiVersion := "", kind := "", uid := "", name := n, data := d }

/-- A controller watching one configmap `config` in namespace `ns`. -/
def cGood : RevisionController := ⟨"ns", ["config"], []⟩

/-- A world where revision 0 is stale (`config-0` is missing) and every
write succeeds: applies return their argument, copies return the copied
object. -/
def wGood : KubeWorld :=
  { getConfigMap := fun _ n =>
      if n = "config" then .ok (cmObj "config" [("a", "2")])
      else .notFound ("configmaps \"" ++ n ++ "\" not found")
    getSecret := fun _ n => .notFound ("secrets \"" ++ n ++ "\" not found")
    applyConfigMap := fun o => .applied o
    syncConfigMap := fun _ _ _ dst _ => .synced (cmObj dst [("a", "2")])
    syncSecret := fun _ _ _ dst _ => .synced (cmObj dst [])
    operatorSpec := ⟨.Managed⟩
    getError := none }

/-- World `wGood` with the marker apply failing: revision creation fails. -/
def wBad : KubeWorld :=
  { wGood with applyConfigMap := fun _ => .failed (.other "apply boom") }

/-- World `wGood` with the management state set to `Unmanaged`. -/
def wUnmanaged : KubeWorld := { wGood with operatorSpec := ⟨.Unmanaged⟩ }

/-- World `wGood` with the management state set to `Removed`. -/
def wRemoved : KubeWorld := { wGood with operatorSpec := ⟨.Removed⟩ }

/-- A status store at revision 0 with no conditions and no injected
update faults. -/
def ssOk : StatusState := ⟨⟨0, []⟩, []⟩

/-- A status store at revision 0 whose next `UpdateStatus` call fails with
a conflict. -/
def ssFault : StatusState := ⟨⟨0, []⟩, [some (.other "cas conflict")]⟩

/-- A controller watching configmaps `a`, `b` and secret `s`. -/
def cTwoMaps : RevisionController := ⟨"ns", ["a", "b"], ["s"]⟩

/-- A world for revision 2 where pair `a` matches, pair `b` differs in its
data and the secret pair matches: the engine must report `b` first. -/
def wChangedB : KubeWorld :=
  { getConfigMap := fun _ n =>
      if n = "a" then .ok (cmObj "a" [("k", "1")])
      else if n = "a-2" then .ok (cmObj "a-2" [("k", "1")])
      else if n = "b" then .ok (cmObj "b" [("k", "1")])
      else if n = "b-2" then .ok (cmObj "b-2" [("k", "9")])
      else .notFound ("configmaps \"" ++ n ++ "\" not found")
    getSecret := fun _ n =>
      if n = "s" then .ok (cmObj "s" [("p", "w")])
      else if n = "s-2" then .ok (cmObj "s-2" [("p", "w")])
      else .notFound ("secrets \"" ++ n ++ "\" not found")
    applyConfigMap := fun o => .applied o
    syncConfigMap := fun _ _ _ dst _ => .synced (cmObj dst [])
    syncSecret := fun _ _ _ dst _ => .synced (cmObj dst [])
    operatorSpec := ⟨.Managed⟩
    getError := none }

/-- A controller watching one configmap `foo` in namespace `ns-target`. -/
def cAbsent : RevisionController := ⟨"ns-target", ["foo"], []⟩

/-- A world where the marker apply succeeds but every configmap copy
reports a nil object: the source is absent. -/
def wAbsent : KubeWorld :=
  { wGood with
    syncConfigMap := fun _ _ _ _ _ => .absent }

/-- A controller watching configmap `cfg` and secret `sec` in namespace
`ns-target`. -/
def cAbsentSec : RevisionController := ⟨"ns-target", ["cfg"], ["sec"]⟩

/-- A world where the marker apply and every configmap copy succeed but
every secret copy reports a nil object: the secret source is absent
(Scenario D of the spec). -/
def wAbsentSec : KubeWorld :=
  { wGood with
    syncConfigMap := fun _ _ _ dst _ => .synced (cmObj dst [])
    syncSecret := fun _ _ _ _ _ => .absent }

/-- A world where every fetch fails with an error that is not NotFound,
returning the zero-valued object beside it. -/
def wStoreDown : KubeWorld :=
  { wGood with
    getConfigMap := fun _ _ => .otherErr KObj.zero "etcd leader changed"
    getSecret := fun _ _ => .otherErr KObj.zero "etcd leader changed" }

example : isLatestRevisionCurrent cGood wGood 0 =
    (false, "configmaps \"config-0\" not found") := by decide
example : (createNewRevision cGood wGood 1).err = none := by decide
example : (sync cGood wGood ssOk).state.status.latestAvailableRevision = 1 := by decide
example : (sync cGood wGood ssFault).state.status.latestAvailableRevision = 0 := by decide
example : (sync cGood wBad ssOk).err =
    some (.other "synthetic requeue request (err: <nil>)") := by decide
example : (sync cGood wBad ssFault).err = some (.other "cas conflict") := by decide
example : isLatestRevisionCurrent cTwoMaps wChangedB 2 =
    (false, "configmap/b has changed") := by decide
example : (createNewRevision cAbsent wAbsent 1).err =
    some (.notFound "configmaps" "foo") := by decide
example : isLatestRevisionCurrent cGood wStoreDown 5 = (true, "") := by decide

/-- A fetch with a non-NotFound error replaced by a successful fetch of the
same returned object. -/
def stripFetch : FetchResult → FetchResult
  | .otherErr o _ => .ok o
  | r => r

/-- The world with every non-NotFound fetch error silently dropped. -/
def stripOther (w : KubeWorld) : KubeWorld :=
  { w with
    getConfigMap := fun ns n => stripFetch (w.getConfigMap ns n)
    getSecret := fun ns n => stripFetch (w.getSecret ns n) }

/-- The owner references carried by a snapshot copy event, if the event is
one. -/
def syncOwners : Event → Option (List OwnerRef)
  | .syncConfigMap _ _ _ _ owners _ => some owners
  | .syncSecret _ _ _ _ owners _ => some owners
  | _ => none

theorem wrap32_eq_of_range (n : Int) (h1 : -2147483648 ≤ n)
    (h2 : n < 2147483648) : wrap32 n = n := by
  unfold wrap32; omega

theorem int32succ_eq (n : Int) (h0 : 0 ≤ n) (h1 : n < 2147483647) :
    int32succ n = n + 1 := by
  unfold int32succ wrap32; omega

theorem int32succ_ne_self (n : Int) : int32succ n ≠ n := by
  unfold int32succ wrap32; omega

theorem findSome?_cons_eq {α β : Type} (f : α → Option β) (a : α) (l : List α) :
    (a :: l).findSome? f =
      match f a with | some b => some b | none => l.findSome? f := rfl

theorem findSome?_eq_none_iff {α β : Type} (f : α → Option β) (l : List α) :
    l.findSome? f = none ↔ ∀ x ∈ l, f x = none := by
  induction l with
  | nil => simp [List.findSome?]
  | cons a t ih =>
    constructor
    · intro h
      intro x hx
      rcases List.mem_cons.mp hx with hx | hx
      · subst hx
        cases ha : f x with
        | some b => rw [findSome?_cons_eq, ha] at h; cases h
        | none => rfl
      · cases ha : f a with
        | some b => rw [findSome?_cons_eq, ha] at h; cases h
        | none =>
          rw [findSome?_cons_eq, ha] at h
          exact (ih.mp h) x hx
    · intro h
      rw [findSome?_cons_eq, h a (List.mem_cons_self a t)]
      exact ih.mpr (fun x hx => h x (List.mem_cons_of_mem a hx))

theorem findSome?_first {α β : Type} (f : α → Option β) (pre post : List α)
    (a : α) (r : β) (hpre : ∀ x ∈ pre, f x = none) (ha : f a = some r) :
    (pre ++ a :: post).findSome? f = some r := by
  induction pre with
  | nil => rw [List.nil_append, findSome?_cons_eq, ha]
  | cons x xs ih =>
    rw [List.cons_append, findSome?_cons_eq, hpre x (List.mem_cons_self x xs)]
    exact ih (fun y hy => hpre y (List.mem_cons_of_mem x hy))

theorem pair_eta_true {p : Bool × String} (h : p.1 = true) : p = (true, p.2) := by
  rw [← h]

theorem pair_eta_false {p : Bool × String} (h : p.1 = false) : p = (false, p.2) := by
  rw [← h]

theorem applyMutators_one (f : OperatorStatus → OperatorStatus)
    (st : OperatorStatus) : applyMutators [f] st = f st := rfl

theorem applyMutators_two (f g : OperatorStatus → OperatorStatus)
    (st : OperatorStatus) : applyMutators [f, g] st = g (f st) := rfl

theorem updateConditionFn_latest (cond : OperatorCondition) (st : OperatorStatus) :
    (updateConditionFn cond st).latestAvailableRevision =
      st.latestAvailableRevision := rfl

theorem runUpdateStatus_err_eq (ss : StatusState)
    (mutators : List (OperatorStatus → OperatorStatus)) :
    (runUpdateStatus ss mutators).err = headFault ss.faults := by
  rcases ss with ⟨st, faults⟩
  cases faults with
  | nil => rfl
  | cons f rest => cases f with
    | none => rfl
    | some e => rfl

theorem runUpdateStatus_state_status (ss : StatusState)
    (mutators : List (OperatorStatus → OperatorStatus)) :
    (runUpdateStatus ss mutators).state.status =
      match headFault ss.faults with
      | some _ => ss.status
      | none => applyMutators mutators ss.status := by
  rcases ss with ⟨st, faults⟩
  cases faults with
  | nil => rfl
  | cons f rest => cases f with
    | none => rfl
    | some e => rfl

theorem runUpdateStatus_state_cases (ss : StatusState)
    (mutators : List (OperatorStatus → OperatorStatus)) :
    (runUpdateStatus ss mutators).state.status = ss.status ∨
    (runUpdateStatus ss mutators).state.status = applyMutators mutators ss.status := by
  rw [runUpdateStatus_state_status]
  cases headFault ss.faults with
  | none => right; rfl
  | some e => left; rfl

theorem runUpdateStatus_event (ss : StatusState)
    (mutators : List (OperatorStatus → OperatorStatus)) :
    (runUpdateStatus ss mutators).event =
      .updateStatus (applyMutators mutators ss.status) (headFault ss.faults) := by
  rcases ss with ⟨st, faults⟩
  cases faults with
  | nil => rfl
  | cons f rest => cases f with
    | none => rfl
    | some e => rfl

theorem runUpdateStatus_changed_of_ne (ss : StatusState)
    (mutators : List (OperatorStatus → OperatorStatus))
    (hne : applyMutators mutators ss.status ≠ ss.status)
    (hok : headFault ss.faults = none) :
    (runUpdateStatus ss mutators).changed = true := by
  rcases ss with ⟨st, faults⟩
  cases faults with
  | nil => simp only [runUpdateStatus, if_neg hne]
  | cons f rest => cases f with
    | none => simp only [runUpdateStatus, if_neg hne]
    | some e => exact absurd hok (by simp [headFault])

theorem runUpdateStatus_latest_cond (ss : StatusState) (cond : OperatorCondition) :
    (runUpdateStatus ss [updateConditionFn cond]).state.status.latestAvailableRevision =
      ss.status.latestAvailableRevision := by
  rcases runUpdateStatus_state_cases ss [updateConditionFn cond] with h | h <;> rw [h]
  rfl

theorem isLatestRevisionCurrent_eq_true_iff (c : RevisionController)
    (w : KubeWorld) (revision : Int) :
    isLatestRevisionCurrent c w revision = (true, "") ↔
      c.configMaps.findSome? (configMapCheck c w revision) = none ∧
      c.secrets.findSome? (secretCheck c w revision) = none := by
  unfold isLatestRevisionCurrent
  cases hcm : c.configMaps.findSome? (configMapCheck c w revision) with
  | some r => simp [hcm]
  | none =>
    cases hs : c.secrets.findSome? (secretCheck c w revision) with
    | some r => simp [hs]
    | none => simp

theorem isLatestRevisionCurrent_of_cm_some (c : RevisionController)
    (w : KubeWorld) (revision : Int) (r : String)
    (h : c.configMaps.findSome? (configMapCheck c w revision) = some r) :
    isLatestRevisionCurrent c w revision = (false, r) := by
  unfold isLatestRevisionCurrent
  rw [h]

theorem isLatestRevisionCurrent_of_secret_some (c : RevisionController)
    (w : KubeWorld) (revision : Int) (r : String)
    (hcm : c.configMaps.findSome? (configMapCheck c w revision) = none)
    (h : c.secrets.findSome? (secretCheck c w revision) = some r) :
    isLatestRevisionCurrent c w revision = (false, r) := by
  unfold isLatestRevisionCurrent
  rw [hcm, h]

theorem checkResource_live_notFound (kind : String) (get : String → FetchResult)
    (revision : Int) (name msg : String)
    (h : (get name).notFoundMsg = some msg) :
    checkResource kind get revision name = some msg := by
  unfold checkResource
  rw [h]

theorem checkResource_snapshot_notFound (kind : String)
    (get : String → FetchResult) (revision : Int) (name msg : String)
    (obj : KObj) (h1 : get name = .ok obj)
    (h2 : (get (nameFor name revision)).notFoundMsg = some msg) :
    checkResource kind get revision name = some msg := by
  unfold checkResource
  rw [h1, h2]
  rfl

theorem checkResource_changed (kind : String) (get : String → FetchResult)
    (revision : Int) (name : String) (obj obj2 : KObj)
    (h1 : get name = .ok obj) (hn : obj.name = name)
    (h2 : get (nameFor name revision) = .ok obj2)
    (hd : obj2.data ≠ obj.data) :
    checkResource kind get revision name =
      some (kind ++ "/" ++ name ++ " has changed") := by
  unfold checkResource
  rw [h1, h2]
  simp only [FetchResult.notFoundMsg, FetchResult.objOf, if_neg hd, hn]

theorem checkResource_match (kind : String) (get : String → FetchResult)
    (revision : Int) (name : String) (obj obj2 : KObj)
    (h1 : get name = .ok obj) (h2 : get (nameFor name revision) = .ok obj2)
    (hd : obj2.data = obj.data) :
    checkResource kind get revision name = none := by
  unfold checkResource
  rw [h1, h2]
  simp only [FetchResult.notFoundMsg, FetchResult.objOf, if_pos hd]

/-- C1: `isLatestRevisionCurrent(r)` checks each configured configmap in
declared order, then each configured secret in declared order; a pair fails
when the live resource is NotFound, when the `<name>-<r>` snapshot is
NotFound, or — with reason `<kind>/<name> has changed` — when the two `Data`
fields are not deeply equal; the engine returns `(current, "")` exactly when
every pair passes, and otherwise reports exactly the reason of the first failing
pair. -/
theorem claim1_decision_engine (c : RevisionController) (w : KubeWorld)
    (revision : Int) :
    (isLatestRevisionCurrent c w revision = (true, "") ↔
      ((∀ n ∈ c.configMaps, configMapCheck c w revision n = none) ∧
       (∀ n ∈ c.secrets, secretCheck c w revision n = none))) ∧
    (∀ pre n post r, c.configMaps = pre ++ n :: post →
      (∀ m ∈ pre, configMapCheck c w revision m = none) →
      configMapCheck c w revision n = some r →
      isLatestRevisionCurrent c w revision = (false, r)) ∧
    (∀ pre n post r, c.secrets = pre ++ n :: post →
      (∀ m ∈ c.configMaps, configMapCheck c w revision m = none) →
      (∀ m ∈ pre, secretCheck c w revision m = none) →
      secretCheck c w revision n = some r →
      isLatestRevisionCurrent c w revision = (false, r)) ∧
    (∀ kind get name msg, FetchResult.notFoundMsg (get name) = some msg →
      checkResource kind get revision name = some msg) ∧
    (∀ kind get name msg obj, get name = FetchResult.ok obj →
      FetchResult.notFoundMsg (get (nameFor name revision)) = some msg →
      checkResource kind get revision name = some msg) ∧
    (∀ kind get name obj obj2, get name = FetchResult.ok obj → obj.name = name →
      get (nameFor name revision) = FetchResult.ok obj2 → obj2.data ≠ obj.data →
      checkResource kind get revision name =
        some (kind ++ "/" ++ name ++ " has changed")) ∧
    (∀ kind get name obj obj2, get name = FetchResult.ok obj →
      get (nameFor name revision) = FetchResult.ok obj2 → obj2.data = obj.data →
      checkResource kind get revision name = none) := by
  refine ⟨?_, ?_, ?_, ?_, ?_, ?_, ?_⟩
  · rw [isLatestRevisionCurrent_eq_true_iff,
      findSome?_eq_none_iff, findSome?_eq_none_iff]
  · intro pre n post r hsplit hpre hn
    exact isLatestRevisionCurrent_of_cm_some c w revision r
      (by rw [hsplit]; exact findSome?_first _ pre post n r hpre hn)
  · intro pre n post r hsplit hcm hpre hn
    exact isLatestRevisionCurrent_of_secret_some c w revision r
      ((findSome?_eq_none_iff _ _).mpr hcm)
      (by rw [hsplit]; exact findSome?_first _ pre post n r hpre hn)
  · intro kind get name msg h
    exact checkResource_live_notFound kind get revision name msg h
  · intro kind get name msg obj h1 h2
    exact checkResource_snapshot_notFound kind get revision name msg obj h1 h2
  · intro kind get name obj obj2 h1 hn h2 hd
    exact checkResource_changed kind get revision name obj obj2 h1 hn h2 hd
  · intro kind get name obj obj2 h1 h2 hd
    exact checkResource_match kind get revision name obj obj2 h1 h2 hd

/-- C1 witness: on a concrete world where configmap `a` matches, configmap
`b` has changed and the secret pair matches, the engine reports exactly
`configmap/b has changed`. -/
theorem claim1_witness :
    isLatestRevisionCurrent cTwoMaps wChangedB 2 =
      (false, "configmap/b has changed") :=
  (claim1_decision_engine cTwoMaps wChangedB 2).2.1 ["a"] "b" []
    "configmap/b has changed" rfl (by decide) (by decide)

theorem stripFetch_notFoundMsg (r : FetchResult) :
    (stripFetch r).notFoundMsg = r.notFoundMsg := by
  cases r <;> rfl

theorem stripFetch_objOf (r : FetchResult) :
    (stripFetch r).objOf = r.objOf := by
  cases r <;> rfl

theorem checkResource_strip (kind : String) (get : String → FetchResult)
    (revision : Int) (name : String) :
    checkResource kind (fun n => stripFetch (get n)) revision name =
      checkResource kind get revision name := by
  unfold checkResource
  simp only [stripFetch_notFoundMsg, stripFetch_objOf]

/-- C9: only NotFound fetch errors are decisive for the decision engine:
replacing every non-NotFound fetch error by a plain success carrying the
same returned object never changes the verdict, and on a concrete world
where every fetch fails with a non-NotFound error (returning zero-valued
objects) the engine reports current with empty reason. -/
theorem claim9_only_not_found_decisive :
    (∀ c w revision, isLatestRevisionCurrent c (stripOther w) revision =
      isLatestRevisionCurrent c w revision) ∧
    isLatestRevisionCurrent cGood wStoreDown 5 = (true, "") := by
  constructor
  · intro c w revision
    have hcm : configMapCheck c (stripOther w) revision =
        configMapCheck c w revision := by
      funext n
      exact checkResource_strip "configmap" (w.getConfigMap c.targetNamespace)
        revision n
    have hs : secretCheck c (stripOther w) revision =
        secretCheck c w revision := by
      funext n
      exact checkResource_strip "secret" (w.getSecret c.targetNamespace)
        revision n
    unfold isLatestRevisionCurrent
    rw [hcm, hs]
  · decide

theorem createRevisionIfNeeded_current (c : RevisionController) (w : KubeWorld)
    (ss : StatusState) (st : OperatorStatus)
    (h : (isLatestRevisionCurrent c w st.latestAvailableRevision).1 = true) :
    createRevisionIfNeeded c w ss st = ⟨false, none, ss, []⟩ := by
  simp only [createRevisionIfNeeded]
  rw [pair_eta_true h]

theorem createRevisionIfNeeded_createErr (c : RevisionController)
    (w : KubeWorld) (ss : StatusState) (st : OperatorStatus) (e : KError)
    (hstale : (isLatestRevisionCurrent c w st.latestAvailableRevision).1 = false)
    (hcr : (createNewRevision c w (int32succ st.latestAvailableRevision)).err = some e) :
    (createRevisionIfNeeded c w ss st).requeue = true ∧
    (createRevisionIfNeeded c w ss st).err = headFault ss.faults ∧
    (createRevisionIfNeeded c w ss st).state.status.latestAvailableRevision =
      ss.status.latestAvailableRevision ∧
    (Event.updateStatus
      (updateConditionFn (failingTrue "ContentCreationError" e.message) ss.status)
      (headFault ss.faults)) ∈ (createRevisionIfNeeded c w ss st).trace := by
  rcases hc : createNewRevision c w (int32succ st.latestAvailableRevision) with ⟨cerr, ctr⟩
  rw [hc] at hcr
  cases cerr with
  | none => exact absurd hcr (by simp)
  | some e2 =>
    have he : e2 = e := by simpa using hcr
    subst he
    have hev := runUpdateStatus_event ss
      [updateConditionFn (failingTrue "ContentCreationError" e2.message)]
    have hst := runUpdateStatus_state_status ss
      [updateConditionFn (failingTrue "ContentCreationError" e2.message)]
    have herr := runUpdateStatus_err_eq ss
      [updateConditionFn (failingTrue "ContentCreationError" e2.message)]
    simp only [createRevisionIfNeeded]
    rw [pair_eta_false hstale, hc]
    rw [applyMutators_one] at hev
    cases hh : headFault ss.faults with
    | some eu =>
      rw [hh] at herr hst
      refine ⟨?_, ?_, ?_, ?_⟩ <;> simp only [herr, hev, hh, hst]
      exact List.mem_append_right _ (List.mem_cons_self _ _)
    | none =>
      rw [hh] at herr hst
      refine ⟨?_, ?_, ?_, ?_⟩ <;> simp only [herr, hev, hh, hst]
      · rw [applyMutators_one, updateConditionFn_latest]
      · exact List.mem_append_right _ (List.mem_cons_self _ _)

theorem createRevisionIfNeeded_success (c : RevisionController)
    (w : KubeWorld) (ss : StatusState) (st : OperatorStatus)
    (hstale : (isLatestRevisionCurrent c w st.latestAvailableRevision).1 = false)
    (hcr : (createNewRevision c w (int32succ st.latestAvailableRevision)).err = none) :
    (createRevisionIfNeeded c w ss st).err = headFault ss.faults ∧
    (createRevisionIfNeeded c w ss st).requeue = (headFault ss.faults).isSome ∧
    (createRevisionIfNeeded c w ss st).state.status.latestAvailableRevision =
      (match headFault ss.faults with
       | some _ => ss.status.latestAvailableRevision
       | none => int32succ st.latestAvailableRevision) := by
  rcases hc : createNewRevision c w (int32succ st.latestAvailableRevision) with ⟨cerr, ctr⟩
  rw [hc] at hcr
  cases cerr with
  | some e2 => exact absurd hcr (by simp)
  | none =>
    have hst := runUpdateStatus_state_status ss
      [updateConditionFn failingFalse,
       fun s => { s with latestAvailableRevision := int32succ st.latestAvailableRevision }]
    have herr := runUpdateStatus_err_eq ss
      [updateConditionFn failingFalse,
       fun s => { s with latestAvailableRevision := int32succ st.latestAvailableRevision }]
    simp only [createRevisionIfNeeded]
    rw [pair_eta_false hstale, hc]
    cases hh : headFault ss.faults with
    | some eu =>
      rw [hh] at herr hst
      refine ⟨?_, ?_, ?_⟩ <;> simp only [herr, hh, hst]
      rfl
    | none =>
      rw [hh] at herr hst
      refine ⟨?_, ?_, ?_⟩ <;>
        simp only [herr, hh, hst, apply_ite CRIResult.err, apply_ite CRIResult.requeue,
          apply_ite CRIResult.state, ite_self]
      · rfl
      · rw [applyMutators_two]

theorem createRevisionIfNeeded_event_mem (c : RevisionController)
    (w : KubeWorld) (ss : StatusState) (st : OperatorStatus) (reason : String)
    (hp : isLatestRevisionCurrent c w st.latestAvailableRevision = (false, reason))
    (hcr : (createNewRevision c w (int32succ st.latestAvailableRevision)).err = none)
    (hok : headFault ss.faults = none)
    (hne : applyMutators [updateConditionFn failingFalse,
        fun s => { s with latestAvailableRevision := int32succ st.latestAvailableRevision }]
        ss.status ≠ ss.status) :
    (Event.recordEvent "RevisionCreate"
      ("Revision " ++ toString st.latestAvailableRevision ++ " created because " ++ reason))
      ∈ (createRevisionIfNeeded c w ss st).trace := by
  rcases hc : createNewRevision c w (int32succ st.latestAvailableRevision) with ⟨cerr, ctr⟩
  rw [hc] at hcr
  cases cerr with
  | some e2 => exact absurd hcr (by simp)
  | none =>
    have hch := runUpdateStatus_changed_of_ne ss
      [updateConditionFn failingFalse,
       fun s => { s with latestAvailableRevision := int32succ st.latestAvailableRevision }]
      hne hok
    have herr := runUpdateStatus_err_eq ss
      [updateConditionFn failingFalse,
       fun s => { s with latestAvailableRevision := int32succ st.latestAvailableRevision }]
    rw [hok] at herr
    simp only [createRevisionIfNeeded]
    rw [hp, hc]
    simp only [herr, hch, if_true]
    exact List.mem_append_right _ (List.mem_cons_of_mem _ (List.mem_cons_self _ _))

theorem createRevisionIfNeeded_latest_cases (c : RevisionController)
    (w : KubeWorld) (ss : StatusState) (st : OperatorStatus) :
    (createRevisionIfNeeded c w ss st).state.status.latestAvailableRevision =
      ss.status.latestAvailableRevision ∨
    (createRevisionIfNeeded c w ss st).state.status.latestAvailableRevision =
      int32succ st.latestAvailableRevision := by
  cases hb : (isLatestRevisionCurrent c w st.latestAvailableRevision).1 with
  | true => left; rw [createRevisionIfNeeded_current c w ss st hb]
  | false =>
    cases hc : (createNewRevision c w (int32succ st.latestAvailableRevision)).err with
    | some e => left; exact (createRevisionIfNeeded_createErr c w ss st e hb hc).2.2.1
    | none =>
      have h := (createRevisionIfNeeded_success c w ss st hb hc).2.2
      cases hh : headFault ss.faults with
      | some eu => left; rw [h, hh]
      | none => right; rw [h, hh]

theorem createRevisionIfNeeded_change (c : RevisionController)
    (w : KubeWorld) (ss : StatusState) (st : OperatorStatus)
    (h : (createRevisionIfNeeded c w ss st).state.status.latestAvailableRevision ≠
      ss.status.latestAvailableRevision) :
    (createNewRevision c w (int32succ st.latestAvailableRevision)).err = none ∧
    headFault ss.faults = none ∧
    (createRevisionIfNeeded c w ss st).state.status.latestAvailableRevision =
      int32succ st.latestAvailableRevision := by
  cases hb : (isLatestRevisionCurrent c w st.latestAvailableRevision).1 with
  | true => exact absurd (by rw [createRevisionIfNeeded_current c w ss st hb]) h
  | false =>
    cases hc : (createNewRevision c w (int32succ st.latestAvailableRevision)).err with
    | some e => exact absurd (createRevisionIfNeeded_createErr c w ss st e hb hc).2.2.1 h
    | none =>
      have hs := (createRevisionIfNeeded_success c w ss st hb hc).2.2
      cases hh : headFault ss.faults with
      | some eu => exact absurd (by rw [hs, hh]) h
      | none => exact ⟨rfl, rfl, by rw [hs, hh]⟩

theorem sync_noop (c : RevisionController) (w : KubeWorld) (ss : StatusState)
    (hget : w.getError = none)
    (hman : w.operatorSpec.managementState = .Unmanaged ∨
      w.operatorSpec.managementState = .Removed) :
    sync c w ss = ⟨none, ss, []⟩ := by
  rcases hman with h | h <;> simp only [sync, hget, h]

theorem sync_synthetic (c : RevisionController) (w : KubeWorld) (ss : StatusState)
    (hget : w.getError = none)
    (hman : fallsThrough w.operatorSpec.managementState = true)
    (hrq : (createRevisionIfNeeded c w ss ss.status).requeue = true)
    (herr : (createRevisionIfNeeded c w ss ss.status).err = none) :
    sync c w ss = ⟨some (.other "synthetic requeue request (err: <nil>)"),
      (createRevisionIfNeeded c w ss ss.status).state,
      (createRevisionIfNeeded c w ss ss.status).trace⟩ := by
  cases hm : w.operatorSpec.managementState
  case Unmanaged => rw [hm] at hman; exact absurd hman (by simp [fallsThrough])
  case Removed => rw [hm] at hman; exact absurd hman (by simp [fallsThrough])
  all_goals
    simp only [sync, hget, hm]
    rw [if_pos ⟨hrq, herr⟩]

theorem sync_of_criErr (c : RevisionController) (w : KubeWorld) (ss : StatusState)
    (e : KError) (hget : w.getError = none)
    (hman : fallsThrough w.operatorSpec.managementState = true)
    (herr : (createRevisionIfNeeded c w ss ss.status).err = some e) :
    (sync c w ss).err = some e ∧
    (sync c w ss).state.status.latestAvailableRevision =
      (createRevisionIfNeeded c w ss ss.status).state.status.latestAvailableRevision := by
  have hnot : ¬((createRevisionIfNeeded c w ss ss.status).requeue = true ∧
      (createRevisionIfNeeded c w ss ss.status).err = none) := by
    rintro ⟨-, h2⟩
    rw [herr] at h2
    cases h2
  cases hm : w.operatorSpec.managementState
  case Unmanaged => rw [hm] at hman; exact absurd hman (by simp [fallsThrough])
  case Removed => rw [hm] at hman; exact absurd hman (by simp [fallsThrough])
  all_goals
    simp only [sync, hget, hm]
    rw [if_neg hnot]
    simp only [herr]
    rcases hu : (runUpdateStatus (createRevisionIfNeeded c w ss ss.status).state
        [updateConditionFn (failingTrue "Error" e.message)]).err with _ | uE <;>
      simp only [hu]
  · exact ⟨trivial, runUpdateStatus_latest_cond _ _⟩
  · rw [if_neg (by simp)]
    exact ⟨rfl, runUpdateStatus_latest_cond _ _⟩
  · exact ⟨trivial, runUpdateStatus_latest_cond _ _⟩
  · rw [if_neg (by simp)]
    exact ⟨rfl, runUpdateStatus_latest_cond _ _⟩

theorem sync_latest_of_no_synthetic (c : RevisionController) (w : KubeWorld)
    (ss : StatusState) (hget : w.getError = none)
    (hman : fallsThrough w.operatorSpec.managementState = true)
    (hnot : ¬((createRevisionIfNeeded c w ss ss.status).requeue = true ∧
      (createRevisionIfNeeded c w ss ss.status).err = none)) :
    (sync c w ss).state.status.latestAvailableRevision =
      (createRevisionIfNeeded c w ss ss.status).state.status.latestAvailableRevision := by
  cases hm : w.operatorSpec.managementState
  case Unmanaged => rw [hm] at hman; exact absurd hman (by simp [fallsThrough])
  case Removed => rw [hm] at hman; exact absurd hman (by simp [fallsThrough])
  all_goals
    simp only [sync, hget, hm]
    rw [if_neg hnot]
    rcases hce : (createRevisionIfNeeded c w ss ss.status).err with _ | e
    · simp only [hce]
      rcases hu : (runUpdateStatus (createRevisionIfNeeded c w ss ss.status).state
          [updateConditionFn failingFalse]).err with _ | uE <;> simp only [hu]
      · exact runUpdateStatus_latest_cond _ _
      · rw [if_pos trivial]
        exact runUpdateStatus_latest_cond _ _
    · simp only [hce]
      rcases hu : (runUpdateStatus (createRevisionIfNeeded c w ss ss.status).state
          [updateConditionFn (failingTrue "Error" e.message)]).err with _ | uE <;>
        simp only [hu]
      · exact runUpdateStatus_latest_cond _ _
      · rw [if_neg (by simp)]
        exact runUpdateStatus_latest_cond _ _

theorem sync_latest_eq_cri (c : RevisionController) (w : KubeWorld)
    (ss : StatusState) (hget : w.getError = none)
    (hman : fallsThrough w.operatorSpec.managementState = true) :
    (sync c w ss).state.status.latestAvailableRevision =
      (createRevisionIfNeeded c w ss ss.status).state.status.latestAvailableRevision := by
  by_cases hif : ((createRevisionIfNeeded c w ss ss.status).requeue = true ∧
      (createRevisionIfNeeded c w ss ss.status).err = none)
  · rw [sync_synthetic c w ss hget hman hif.1 hif.2]
  · exact sync_latest_of_no_synthetic c w ss hget hman hif

theorem sync_latest_cases (c : RevisionController) (w : KubeWorld)
    (ss : StatusState) :
    (sync c w ss).state.status.latestAvailableRevision =
      ss.status.latestAvailableRevision ∨
    (sync c w ss).state.status.latestAvailableRevision =
      int32succ ss.status.latestAvailableRevision := by
  cases hget : w.getError with
  | some e => left; simp only [sync, hget]
  | none =>
    by_cases hman : fallsThrough w.operatorSpec.managementState = true
    · rw [sync_latest_eq_cri c w ss hget hman]
      exact createRevisionIfNeeded_latest_cases c w ss ss.status
    · have hm2 : w.operatorSpec.managementState = .Unmanaged ∨
          w.operatorSpec.managementState = .Removed := by
        cases hm : w.operatorSpec.managementState with
        | Managed => rw [hm] at hman; simp [fallsThrough] at hman
        | Force => rw [hm] at hman; simp [fallsThrough] at hman
        | Unmanaged => exact Or.inl rfl
        | Removed => exact Or.inr rfl
      left
      rw [sync_noop c w ss hget hm2]

theorem configMapSyncLoop_absent (c : RevisionController) (w : KubeWorld)
    (revision : Int) (owners : List OwnerRef) (pre post : List String) (n : String)
    (hpre : ∀ m ∈ pre, ∃ o, w.syncConfigMap c.targetNamespace m c.targetNamespace
      (nameFor m revision) owners = .synced o)
    (habsent : w.syncConfigMap c.targetNamespace n c.targetNamespace
      (nameFor n revision) owners = .absent) :
    (configMapSyncLoop c w revision owners (pre ++ n :: post)).err =
      some (.notFound "configmaps" n) := by
  induction pre with
  | nil => simp only [List.nil_append, configMapSyncLoop, habsent]
  | cons m rest ih =>
    obtain ⟨o, ho⟩ := hpre m (List.mem_cons_self m rest)
    simp only [List.cons_append, configMapSyncLoop, ho]
    exact ih (fun x hx => hpre x (List.mem_cons_of_mem m hx))

theorem configMapSyncLoop_owners (c : RevisionController) (w : KubeWorld)
    (revision : Int) (owners : List OwnerRef) (names : List String) :
    ∀ ev ∈ (configMapSyncLoop c w revision owners names).trace,
      syncOwners ev = some owners := by
  induction names with
  | nil => intro ev hev; simp [configMapSyncLoop] at hev
  | cons m rest ih =>
    intro ev hev
    rcases hs : w.syncConfigMap c.targetNamespace m c.targetNamespace
        (nameFor m revision) owners with o | _ | e <;>
      simp only [configMapSyncLoop, hs] at hev
    · rcases List.mem_cons.mp hev with h | h
      · subst h; rfl
      · exact ih ev h
    · rw [List.mem_singleton] at hev; subst hev; rfl
    · rw [List.mem_singleton] at hev; subst hev; rfl

theorem secretSyncLoop_owners (c : RevisionController) (w : KubeWorld)
    (revision : Int) (owners : List OwnerRef) (names : List String) :
    ∀ ev ∈ (secretSyncLoop c w revision owners names).trace,
      syncOwners ev = some owners := by
  induction names with
  | nil => intro ev hev; simp [secretSyncLoop] at hev
  | cons m rest ih =>
    intro ev hev
    rcases hs : w.syncSecret c.targetNamespace m c.targetNamespace
        (nameFor m revision) owners with o | _ | e <;>
      simp only [secretSyncLoop, hs] at hev
    · rcases List.mem_cons.mp hev with h | h
      · subst h; rfl
      · exact ih ev h
    · rw [List.mem_singleton] at hev; subst hev; rfl
    · rw [List.mem_singleton] at hev; subst hev; rfl

/-- C8: in every execution of `createNewRevision(r)`, the very first store
operation is the apply of the `revision-status-<r>` marker carrying
`status: InProgress` and `revision: r`; if that apply fails no snapshot copy
is attempted at all; and every snapshot copy event carries exactly the owner
reference built from the applied marker object. -/
theorem claim8_marker_first (c : RevisionController) (w : KubeWorld)
    (revision : Int) :
    ((createNewRevision c w revision).trace.head? =
      some (.applyConfigMap (revisionMarker revision)
        (w.applyConfigMap (revisionMarker revision)))) ∧
    ((revisionMarker revision).name = "revision-status-" ++ toString revision) ∧
    ((revisionMarker revision).data =
      [("status", "InProgress"), ("revision", toString revision)]) ∧
    (∀ e, w.applyConfigMap (revisionMarker revision) = .failed e →
      (createNewRevision c w revision).trace =
        [.applyConfigMap (revisionMarker revision) (.failed e)]) ∧
    (∀ applied, w.applyConfigMap (revisionMarker revision) = .applied applied →
      ∀ ev ∈ (createNewRevision c w revision).trace,
        syncOwners ev = none ∨ syncOwners ev = some [ownerRefOf applied]) := by
  refine ⟨?_, rfl, rfl, ?_, ?_⟩
  · rcases ha : w.applyConfigMap (revisionMarker revision) with applied | e <;>
      simp only [createNewRevision, ha]
    · rcases hcm : configMapSyncLoop c w revision [ownerRefOf applied] c.configMaps
        with ⟨cerr, ctr⟩
      rcases cerr with _ | e
      · rcases hse : secretSyncLoop c w revision [ownerRefOf applied] c.secrets
          with ⟨serr, str⟩
        rcases serr with _ | e2 <;> simp only [hcm, hse] <;> rfl
      · simp only [hcm]
        rfl
    · rfl
  · intro e he
    simp only [createNewRevision, he]
  · intro applied ha ev hev
    simp only [createNewRevision, ha] at hev
    rcases hcm : configMapSyncLoop c w revision [ownerRefOf applied] c.configMaps
      with ⟨cerr, ctr⟩
    rcases cerr with _ | e
    · rcases hse : secretSyncLoop c w revision [ownerRefOf applied] c.secrets
        with ⟨serr, str⟩
      rcases serr with _ | e2 <;> simp only [hcm, hse] at hev <;>
        rcases List.mem_cons.mp hev with h | h
      · subst h; exact Or.inl rfl
      · rcases List.mem_append.mp h with h2 | h2
        · refine Or.inr ?_
          have h3 : ev ∈ (configMapSyncLoop c w revision [ownerRefOf applied]
              c.configMaps).trace := by rw [hcm]; exact h2
          exact configMapSyncLoop_owners c w revision [ownerRefOf applied]
            c.configMaps ev h3
        · refine Or.inr ?_
          have h3 : ev ∈ (secretSyncLoop c w revision [ownerRefOf applied]
              c.secrets).trace := by rw [hse]; exact h2
          exact secretSyncLoop_owners c w revision [ownerRefOf applied]
            c.secrets ev h3
      · subst h; exact Or.inl rfl
      · rcases List.mem_append.mp h with h2 | h2
        · refine Or.inr ?_
          have h3 : ev ∈ (configMapSyncLoop c w revision [ownerRefOf applied]
              c.configMaps).trace := by rw [hcm]; exact h2
          exact configMapSyncLoop_owners c w revision [ownerRefOf applied]
            c.configMaps ev h3
        · refine Or.inr ?_
          have h3 : ev ∈ (secretSyncLoop c w revision [ownerRefOf applied]
              c.secrets).trace := by rw [hse]; exact h2
          exact secretSyncLoop_owners c w revision [ownerRefOf applied]
            c.secrets ev h3
    · simp only [hcm] at hev
      rcases List.mem_cons.mp hev with h | h
      · subst h; exact Or.inl rfl
      · refine Or.inr ?_
        have h3 : ev ∈ (configMapSyncLoop c w revision [ownerRefOf applied]
            c.configMaps).trace := by rw [hcm]; exact h
        exact configMapSyncLoop_owners c w revision [ownerRefOf applied]
          c.configMaps ev h3

/-- C8 witness: in the concrete world `wGood` the copy of `config` for
revision 1 carries exactly the owner reference of the applied
`revision-status-1` marker. -/
theorem claim8_witness :
    syncOwners (Event.syncConfigMap "ns" "config" "ns" "config-1"
      [ownerRefOf (revisionMarker 1)] (.synced (cmObj "config-1" [("a", "2")]))) = none ∨
    syncOwners (Event.syncConfigMap "ns" "config" "ns" "config-1"
      [ownerRefOf (revisionMarker 1)] (.synced (cmObj "config-1" [("a", "2")]))) =
      some [ownerRefOf (revisionMarker 1)] :=
  (claim8_marker_first cGood wGood 1).2.2.2.2 (revisionMarker 1) rfl _ (by decide)

theorem configMapSyncLoop_ok (c : RevisionController) (w : KubeWorld)
    (revision : Int) (owners : List OwnerRef) (names : List String)
    (h : ∀ m ∈ names, ∃ o, w.syncConfigMap c.targetNamespace m c.targetNamespace
      (nameFor m revision) owners = .synced o) :
    (configMapSyncLoop c w revision owners names).err = none := by
  induction names with
  | nil => rfl
  | cons m rest ih =>
    obtain ⟨o, ho⟩ := h m (List.mem_cons_self m rest)
    simp only [configMapSyncLoop, ho]
    exact ih (fun x hx => h x (List.mem_cons_of_mem m hx))

theorem secretSyncLoop_absent (c : RevisionController) (w : KubeWorld)
    (revision : Int) (owners : List OwnerRef) (pre post : List String) (n : String)
    (hpre : ∀ m ∈ pre, ∃ o, w.syncSecret c.targetNamespace m c.targetNamespace
      (nameFor m revision) owners = .synced o)
    (habsent : w.syncSecret c.targetNamespace n c.targetNamespace
      (nameFor n revision) owners = .absent) :
    (secretSyncLoop c w revision owners (pre ++ n :: post)).err =
      some (.notFound "secrets" n) := by
  induction pre with
  | nil => simp only [List.nil_append, secretSyncLoop, habsent]
  | cons m rest ih =>
    obtain ⟨o, ho⟩ := hpre m (List.mem_cons_self m rest)
    simp only [List.cons_append, secretSyncLoop, ho]
    exact ih (fun x hx => hpre x (List.mem_cons_of_mem m hx))

/-- C5 (amended): with the marker applied, a copy step that reports no
resulting object makes `createNewRevision` fail with exactly
`apierrors.NewNotFound(<resource>, name)` — for a configmap when every
configmap before it copied, for a secret when every configmap and every
secret before it copied — whose text names the resource kind
(`configmaps`/`secrets`) and the missing source name; the namespace does
not appear in it. -/
theorem claim5_not_found_error (c : RevisionController) (w : KubeWorld)
    (revision : Int) (applied : KObj)
    (happly : w.applyConfigMap (revisionMarker revision) = .applied applied) :
    (∀ pre post n, c.configMaps = pre ++ n :: post →
      (∀ m ∈ pre, ∃ o, w.syncConfigMap c.targetNamespace m c.targetNamespace
        (nameFor m revision) [ownerRefOf applied] = .synced o) →
      w.syncConfigMap c.targetNamespace n c.targetNamespace
        (nameFor n revision) [ownerRefOf applied] = .absent →
      (createNewRevision c w revision).err =
        some (KError.notFound "configmaps" n) ∧
      (KError.notFound "configmaps" n).message =
        "configmaps \"" ++ n ++ "\" not found") ∧
    (∀ pre post n, c.secrets = pre ++ n :: post →
      (∀ m ∈ c.configMaps, ∃ o, w.syncConfigMap c.targetNamespace m
        c.targetNamespace (nameFor m revision) [ownerRefOf applied] = .synced o) →
      (∀ m ∈ pre, ∃ o, w.syncSecret c.targetNamespace m c.targetNamespace
        (nameFor m revision) [ownerRefOf applied] = .synced o) →
      w.syncSecret c.targetNamespace n c.targetNamespace
        (nameFor n revision) [ownerRefOf applied] = .absent →
      (createNewRevision c w revision).err =
        some (KError.notFound "secrets" n) ∧
      (KError.notFound "secrets" n).message =
        "secrets \"" ++ n ++ "\" not found") := by
  constructor
  · intro pre post n hcm hpre habsent
    refine ⟨?_, rfl⟩
    have hloop := configMapSyncLoop_absent c w revision [ownerRefOf applied]
      pre post n hpre habsent
    simp only [createNewRevision, happly]
    rcases hl : configMapSyncLoop c w revision [ownerRefOf applied] c.configMaps
      with ⟨cerr, ctr⟩
    rw [← hcm, hl] at hloop
    rcases cerr with _ | e
    · exact absurd hloop (by simp)
    · have he : e = KError.notFound "configmaps" n := by simpa using hloop
      subst he
      rfl
  · intro pre post n hse hcmok hpre habsent
    refine ⟨?_, rfl⟩
    have hcmloop := configMapSyncLoop_ok c w revision [ownerRefOf applied]
      c.configMaps hcmok
    have hloop := secretSyncLoop_absent c w revision [ownerRefOf applied]
      pre post n hpre habsent
    simp only [createNewRevision, happly]
    rcases hl : configMapSyncLoop c w revision [ownerRefOf applied] c.configMaps
      with ⟨cerr, ctr⟩
    rw [hl] at hcmloop
    rcases cerr with _ | e
    · rcases hl2 : secretSyncLoop c w revision [ownerRefOf applied] c.secrets
        with ⟨serr, str⟩
      rw [← hse, hl2] at hloop
      rcases serr with _ | e2
      · exact absurd hloop (by simp)
      · have he : e2 = KError.notFound "secrets" n := by simpa using hloop
        subst he
        rfl
    · exact absurd hcmloop (by simp)

/-- C5 counterexample: the not-found error produced for an absent source
`foo` in namespace `ns-target` is `configmaps "foo" not found`; the
namespace does not occur in it, refuting that the error names the
namespace. -/
theorem claim5_counterexample :
    (createNewRevision cAbsent wAbsent 1).err =
      some (KError.notFound "configmaps" "foo") ∧
    KError.message (KError.notFound "configmaps" "foo") =
      "configmaps \"foo\" not found" ∧
    cAbsent.targetNamespace = "ns-target" ∧
    ¬ ("ns-target".toList <:+:
      (KError.message (KError.notFound "configmaps" "foo")).toList) := by
  refine ⟨by decide, rfl, rfl, by decide⟩

/-- C5 witness: the amended theorem applied to the concrete worlds with an
absent configmap source and with an absent secret source (Scenario D). -/
theorem claim5_witness :
    ((createNewRevision cAbsent wAbsent 1).err =
        some (KError.notFound "configmaps" "foo") ∧
      (KError.notFound "configmaps" "foo").message =
        "configmaps \"foo\" not found") ∧
    ((createNewRevision cAbsentSec wAbsentSec 1).err =
        some (KError.notFound "secrets" "sec") ∧
      (KError.notFound "secrets" "sec").message =
        "secrets \"sec\" not found") :=
  ⟨(claim5_not_found_error cAbsent wAbsent 1 (revisionMarker 1) rfl).1
      [] [] "foo" rfl (by simp) rfl,
   (claim5_not_found_error cAbsentSec wAbsentSec 1 (revisionMarker 1) rfl).2
      [] [] "sec" rfl (fun m _ => ⟨cmObj (nameFor m 1) [], rfl⟩) (by simp) rfl⟩

/-- C2 (amended): across a reconciliation pass `latestAvailableRevision`
never decreases and moves by at most 1; it advances by exactly 1 precisely
on the pass that created revision `latest+1` successfully and whose status
write succeeded — a failed status write after a successful creation leaves
it unchanged (see the counterexample). -/
theorem claim2_monotone_increment (c : RevisionController) (w : KubeWorld)
    (ss : StatusState) (h0 : 0 ≤ ss.status.latestAvailableRevision)
    (h1 : ss.status.latestAvailableRevision < 2147483647) :
    (ss.status.latestAvailableRevision ≤
      (sync c w ss).state.status.latestAvailableRevision) ∧
    ((sync c w ss).state.status.latestAvailableRevision =
        ss.status.latestAvailableRevision ∨
     (sync c w ss).state.status.latestAvailableRevision =
        ss.status.latestAvailableRevision + 1) ∧
    (w.getError = none →
     fallsThrough w.operatorSpec.managementState = true →
     (isLatestRevisionCurrent c w ss.status.latestAvailableRevision).1 = false →
     (createNewRevision c w (int32succ ss.status.latestAvailableRevision)).err = none →
     headFault ss.faults = none →
     (sync c w ss).state.status.latestAvailableRevision =
       ss.status.latestAvailableRevision + 1) := by
  have hsucc := int32succ_eq ss.status.latestAvailableRevision h0 h1
  refine ⟨?_, ?_, ?_⟩
  · rcases sync_latest_cases c w ss with h | h
    · rw [h]
    · rw [h, hsucc]; omega
  · rcases sync_latest_cases c w ss with h | h
    · exact Or.inl h
    · right; rw [h, hsucc]
  · intro hget hman hstale hcreate hfault
    have hs := createRevisionIfNeeded_success c w ss ss.status hstale hcreate
    have hlatest : (createRevisionIfNeeded c w ss ss.status).state.status.latestAvailableRevision
        = int32succ ss.status.latestAvailableRevision := by
      rw [hs.2.2, hfault]
    rw [sync_latest_eq_cri c w ss hget hman, hlatest, hsucc]

/-- C2 counterexample: a pass in which every copy of the new revision
succeeds (`createNewRevision` returns no error) but the status write fails
leaves `latestAvailableRevision` unchanged at 0 — a successful
`createRevision` call that does not increase the counter. -/
theorem claim2_counterexample :
    (createNewRevision cGood wGood
      (int32succ ssFault.status.latestAvailableRevision)).err = none ∧
    (sync cGood wGood ssFault).err = some (KError.other "cas conflict") ∧
    (sync cGood wGood ssFault).state.status.latestAvailableRevision =
      ssFault.status.latestAvailableRevision := by
  refine ⟨by decide, by decide, by decide⟩

/-- C2 witness: the amended theorem at the concrete fault-free world — one
pass advances the counter from 0 to 0 + 1. -/
theorem claim2_witness :
    (sync cGood wGood ssOk).state.status.latestAvailableRevision =
      ssOk.status.latestAvailableRevision + 1 :=
  (claim2_monotone_increment cGood wGood ssOk (by decide) (by decide)).2.2
    rfl rfl (by decide) (by decide) rfl

/-- C3 (amended): the persisted revision counter changes only if every
configmap and secret copy succeeded (and then to exactly `latest+1`); when
`createNewRevision` fails with `e`, the counter is left unchanged, a
requeue is signalled and the pass issues a status update carrying the
`RevisionControllerFailing`/`ContentCreationError` condition with the
error text; the counter does advance when the copies and the subsequent
status write both succeed. -/
theorem claim3_advance_iff (c : RevisionController) (w : KubeWorld)
    (ss : StatusState) :
    ((createRevisionIfNeeded c w ss ss.status).state.status.latestAvailableRevision ≠
        ss.status.latestAvailableRevision →
      (createNewRevision c w (int32succ ss.status.latestAvailableRevision)).err = none ∧
      (createRevisionIfNeeded c w ss ss.status).state.status.latestAvailableRevision =
        int32succ ss.status.latestAvailableRevision) ∧
    (∀ e, (isLatestRevisionCurrent c w ss.status.latestAvailableRevision).1 = false →
      (createNewRevision c w (int32succ ss.status.latestAvailableRevision)).err = some e →
      (createRevisionIfNeeded c w ss ss.status).state.status.latestAvailableRevision =
        ss.status.latestAvailableRevision ∧
      (createRevisionIfNeeded c w ss ss.status).requeue = true ∧
      (Event.updateStatus
        (updateConditionFn (failingTrue "ContentCreationError" (KError.message e))
          ss.status)
        (headFault ss.faults)) ∈ (createRevisionIfNeeded c w ss ss.status).trace) ∧
    ((isLatestRevisionCurrent c w ss.status.latestAvailableRevision).1 = false →
      (createNewRevision c w (int32succ ss.status.latestAvailableRevision)).err = none →
      headFault ss.faults = none →
      (createRevisionIfNeeded c w ss ss.status).state.status.latestAvailableRevision =
        int32succ ss.status.latestAvailableRevision) := by
  refine ⟨?_, ?_, ?_⟩
  · intro h
    have hc := createRevisionIfNeeded_change c w ss ss.status h
    exact ⟨hc.1, hc.2.2⟩
  · intro e hstale hcr
    have h := createRevisionIfNeeded_createErr c w ss ss.status e hstale hcr
    exact ⟨h.2.2.1, h.1, h.2.2.2⟩
  · intro hstale hcr hfault
    have hs := createRevisionIfNeeded_success c w ss ss.status hstale hcr
    rw [hs.2.2, hfault]

/-- C3 counterexample: every copy of the creation pass succeeds yet the
revision counter does not advance, because the status write fails —
refuting the plain "advances iff every copy succeeded". -/
theorem claim3_counterexample :
    (createNewRevision cGood wGood
      (int32succ ssFault.status.latestAvailableRevision)).err = none ∧
    (createRevisionIfNeeded cGood wGood ssFault ssFault.status).requeue = true ∧
    (createRevisionIfNeeded cGood wGood ssFault
      ssFault.status).state.status.latestAvailableRevision =
      ssFault.status.latestAvailableRevision := by
  refine ⟨by decide, by decide, by decide⟩

/-- C3 witness: the failed-creation branch of the amended theorem at the
concrete world whose marker apply fails. -/
theorem claim3_witness :
    (createRevisionIfNeeded cGood wBad ssOk
        ssOk.status).state.status.latestAvailableRevision =
      ssOk.status.latestAvailableRevision ∧
    (createRevisionIfNeeded cGood wBad ssOk ssOk.status).requeue = true :=
  have h := (claim3_advance_iff cGood wBad ssOk).2.1 (KError.other "apply boom")
    (by decide) (by decide)
  ⟨h.1, h.2.1⟩

/-- C4: when `createNewRevision` fails and the Failing-condition status
write also fails, the error `sync` hands to the dispatch loop is the
status-update error, not the original creation error. -/
theorem claim4_update_error_priority (c : RevisionController) (w : KubeWorld)
    (ss : StatusState) (e1 e2 : KError)
    (hget : w.getError = none)
    (hman : fallsThrough w.operatorSpec.managementState = true)
    (hstale : (isLatestRevisionCurrent c w ss.status.latestAvailableRevision).1 = false)
    (hcreate : (createNewRevision c w
      (int32succ ss.status.latestAvailableRevision)).err = some e1)
    (hfault : headFault ss.faults = some e2) :
    (sync c w ss).err = some e2 := by
  have h := createRevisionIfNeeded_createErr c w ss ss.status e1 hstale hcreate
  have herr : (createRevisionIfNeeded c w ss ss.status).err = some e2 := by
    rw [h.2.1, hfault]
  exact (sync_of_criErr c w ss e2 hget hman herr).1

/-- C4 witness: with creation failing with `apply boom` and the condition
write failing with `cas conflict`, `sync` returns the update error, which
differs from the original cause. -/
theorem claim4_witness :
    (sync cGood wBad ssFault).err = some (KError.other "cas conflict") ∧
    KError.other "cas conflict" ≠ KError.other "apply boom" :=
  ⟨claim4_update_error_priority cGood wBad ssFault (KError.other "apply boom")
    (KError.other "cas conflict") rfl rfl (by decide) (by decide) rfl, by decide⟩

/-- C6: a pass that requests a requeue with no concrete error makes `sync`
return the synthetic requeue error, and `sync` never returns success when a
requeue was requested. -/
theorem claim6_synthetic_requeue (c : RevisionController) (w : KubeWorld)
    (ss : StatusState) (hget : w.getError = none)
    (hman : fallsThrough w.operatorSpec.managementState = true) :
    ((createRevisionIfNeeded c w ss ss.status).requeue = true →
      (createRevisionIfNeeded c w ss ss.status).err = none →
      (sync c w ss).err =
        some (KError.other "synthetic requeue request (err: <nil>)")) ∧
    ((createRevisionIfNeeded c w ss ss.status).requeue = true →
      (sync c w ss).err ≠ none) := by
  constructor
  · intro hrq herr
    rw [sync_synthetic c w ss hget hman hrq herr]
  · intro hrq
    cases hce : (createRevisionIfNeeded c w ss ss.status).err with
    | none => rw [sync_synthetic c w ss hget hman hrq hce]; simp
    | some e => rw [(sync_of_criErr c w ss e hget hman hce).1]; simp

/-- C6 witness: creation fails but the condition write succeeds, so the
pass returns `(requeue, nil)`; `sync` turns it into the synthetic requeue
error. -/
theorem claim6_witness :
    (sync cGood wBad ssOk).err =
      some (KError.other "synthetic requeue request (err: <nil>)") :=
  (claim6_synthetic_requeue cGood wBad ssOk rfl rfl).1 (by decide) (by decide)

/-- C7: under an `Unmanaged` or `Removed` management directive, `sync`
returns success, leaves the status store untouched and performs no store
operation at all. -/
theorem claim7_unmanaged_noop (c : RevisionController) (w : KubeWorld)
    (ss : StatusState) (hget : w.getError = none)
    (hman : w.operatorSpec.managementState = .Unmanaged ∨
      w.operatorSpec.managementState = .Removed) :
    sync c w ss = ⟨none, ss, []⟩ :=
  sync_noop c w ss hget hman

/-- C7 witness: the concrete `Unmanaged` world. -/
theorem claim7_witness : sync cGood wUnmanaged ssOk = ⟨none, ssOk, []⟩ :=
  claim7_unmanaged_noop cGood wUnmanaged ssOk rfl (Or.inl rfl)

/-- C10: after a successful revision creation and status update, the
`RevisionCreate` event reports the pre-update `latestAvailableRevision` —
the old revision number — which differs from the newly persisted revision
`latest+1`. -/
theorem claim10_event_old_revision (c : RevisionController) (w : KubeWorld)
    (ss : StatusState) (reason : String)
    (hcur : isLatestRevisionCurrent c w ss.status.latestAvailableRevision =
      (false, reason))
    (hcreate : (createNewRevision c w
      (int32succ ss.status.latestAvailableRevision)).err = none)
    (hfault : headFault ss.faults = none) :
    (Event.recordEvent "RevisionCreate"
      ("Revision " ++ toString ss.status.latestAvailableRevision ++
        " created because " ++ reason))
      ∈ (createRevisionIfNeeded c w ss ss.status).trace ∧
    (createRevisionIfNeeded c w ss ss.status).state.status.latestAvailableRevision =
      int32succ ss.status.latestAvailableRevision ∧
    ss.status.latestAvailableRevision ≠
      int32succ ss.status.latestAvailableRevision := by
  have hne : applyMutators [updateConditionFn failingFalse,
      fun s => { s with latestAvailableRevision := int32succ ss.status.latestAvailableRevision }]
      ss.status ≠ ss.status := by
    intro heq
    have h2 := congrArg OperatorStatus.latestAvailableRevision heq
    rw [applyMutators_two] at h2
    exact int32succ_ne_self ss.status.latestAvailableRevision h2
  refine ⟨?_, ?_, ?_⟩
  · exact createRevisionIfNeeded_event_mem c w ss ss.status reason hcur hcreate
      hfault hne
  · have hstale : (isLatestRevisionCurrent c w
        ss.status.latestAvailableRevision).1 = false := by rw [hcur]
    have hs := createRevisionIfNeeded_success c w ss ss.status hstale hcreate
    rw [hs.2.2, hfault]
  · exact fun h => int32succ_ne_self _ h.symm

/-- C10 witness: in the concrete world the pass that establishes revision 1
emits a `RevisionCreate` event whose text carries revision 0. -/
theorem claim10_witness :
    (Event.recordEvent "RevisionCreate"
      ("Revision " ++ toString ssOk.status.latestAvailableRevision ++
        " created because " ++ "configmaps \"config-0\" not found"))
      ∈ (createRevisionIfNeeded cGood wGood ssOk ssOk.status).trace :=
  (claim10_event_old_revision cGood wGood ssOk
    "configmaps \"config-0\" not found" (by decide) (by decide) rfl).1

end RevisionCtl
